import Mathlib

/-!
Verification of `src/celeba/train_wgan_gp.py` (WGAN-GP training script).

Shallow embedding conventions:
* A sample (image tensor, flattened) is a `List ℝ`; a batch is a `List` of
  samples.  Tensor arithmetic is exact real arithmetic.
* The critic `D` is a differentiable scalar function, given by its value
  together with its gradient; the `grad` field stands for the exact gradient
  `torch.autograd.grad` returns for `D`'s output with respect to its input.
* Randomness (the per-sample interpolation coefficients `alpha` drawn by
  `torch.rand`, the latent noise drawn by `torch.randn`) is made explicit:
  the drawn values (resp. the position in the random stream) are parameters.
* The training loop is embedded as a trace of the operations its body
  performs, in program order.
-/

/-- A flattened sample: one image (or gradient) as a vector of components. -/
abbrev Sample := List ℝ

/-- Arithmetic mean of a list of reals, as `Tensor.mean` computes it
(sum divided by the number of elements). -/
noncomputable def meanR (l : List ℝ) : ℝ := l.sum / l.length

/-- A critic network `D`: a differentiable map from a sample to a scalar
score, represented by its value function together with its gradient
function (the gradient of `score` with respect to the input, as
`torch.autograd.grad(outputs=D(x), inputs=x, ...)` computes it). -/
structure Critic where
  score : Sample → ℝ
  grad : Sample → Sample

/-- The interpolated sample built inside `gradient_penalty`
(`train_wgan_gp.py` line 56): `alpha * real + (1 - alpha) * fake`,
with the scalar `alpha` broadcast over all components of the sample. -/
def interp (alpha : ℝ) (real fake : Sample) : Sample :=
  List.zipWith (fun r f => alpha * r + (1 - alpha) * f) real fake

/-- The batch of interpolated samples: one `alpha` per sample
(`torch.rand((batch_size, 1, 1, 1))` draws one coefficient per sample and
broadcasting applies it to every component). -/
def interpolatesList (alphas : List ℝ) (real_samples fake_samples : List Sample) :
    List Sample :=
  List.zipWith (fun a rf => interp a rf.1 rf.2) alphas (real_samples.zip fake_samples)

/-- Per-sample Euclidean norm of a flattened gradient
(`gradients.norm(2, dim=1)`). -/
noncomputable def sampleGradNorm (g : Sample) : ℝ :=
  Real.sqrt ((g.map (fun x => x ^ 2)).sum)

/-- `gradient_penalty` (`train_wgan_gp.py` lines 45-76), with the random
interpolation coefficients `alphas` (one per sample, each drawn uniformly
from `[0,1)` by `torch.rand`) passed explicitly.  Steps, following the
source: interpolate, take the critic's gradient at each interpolated
sample, flatten, take per-sample Euclidean norms clamped below at `1e-6`,
average the squared deviation of the norms from `1`, scale by `factor`. -/
noncomputable def gradient_penalty (D : Critic) (real_samples fake_samples : List Sample)
    (alphas : List ℝ) (factor : ℝ) : ℝ :=
  let interpolates := interpolatesList alphas real_samples fake_samples
  let gradients := interpolates.map D.grad
  let gradient_norms := gradients.map (fun g => max (sampleGradNorm g) (1 / 1000000))
  factor * meanR (gradient_norms.map (fun n => (n - 1) ^ 2))

/-- `critic_loss` (`train_wgan_gp.py` lines 79-84):
`mean(D(fake)) - mean(D(real)) + gradient_penalty(D, real, fake, device, factor)`.
Applying `D` to a batch yields the per-sample scores. -/
noncomputable def critic_loss (D : Critic) (real_samples fake_samples : List Sample)
    (alphas : List ℝ) (factor : ℝ) : ℝ :=
  let loss := meanR (fake_samples.map D.score) - meanR (real_samples.map D.score)
  let gp := gradient_penalty D real_samples fake_samples alphas factor
  loss + gp

/-- `generator_loss` (`train_wgan_gp.py` lines 87-90):
`-mean(D(fake_samples))`. -/
noncomputable def generator_loss (D : Critic) (fake_samples : List Sample) : ℝ :=
  -meanR (fake_samples.map D.score)

/-- The spec's formula for the critic loss (section 4.3 of the spec):
mean critic score on fake minus mean critic score on real, plus the
gradient penalty.  Stated separately from `critic_loss` (which is
translated from the code) so the two can be compared. -/
noncomputable def critic_loss_spec (D : Critic) (real_samples fake_samples : List Sample)
    (alphas : List ℝ) (factor : ℝ) : ℝ :=
  meanR (fake_samples.map D.score) - meanR (real_samples.map D.score) +
    gradient_penalty D real_samples fake_samples alphas factor

/-- The spec's formula for the generator loss (section 4.4 of the spec):
the negation of the mean critic score on the fake batch. -/
noncomputable def generator_loss_spec (D : Critic) (fake_samples : List Sample) : ℝ :=
  -(meanR (fake_samples.map D.score))

/-- Compute backends `get_device` can return. -/
inductive Device
  | cuda
  | mps
  | cpu
deriving DecidableEq

/-- `get_device` (`train_wgan_gp.py` lines 36-42), with the two environment
availability queries (`torch.cuda.is_available()`,
`torch.backends.mps.is_available()`) passed as flags. -/
def get_device (cuda_available mps_available : Bool) : Device :=
  if cuda_available then Device.cuda
  else if mps_available then Device.mps
  else Device.cpu

/-! ### Training loop (`train`, lines 93-188) -/

/-- The two networks `train` optimizes. -/
inductive Net
  | G
  | D
deriving DecidableEq

/-- One operation of the body of `train`'s per-batch loop.  `sampleNoise k`
is the `k`-th draw from the latent-noise stream (`torch.randn`);
`genForward detached k` runs the generator on that draw, detached from the
generator's graph when `detached = true` (`G(z).detach()`). -/
inductive Op
  | zeroGrad (net : Net)
  | sampleNoise (k : ℕ)
  | genForward (detached : Bool) (k : ℕ)
  | computeLoss (net : Net)
  | backward (net : Net)
  | optimStep (net : Net)
deriving DecidableEq

/-- One iteration of the critic training loop (`train`, lines 139-152):
`optimizer_D.zero_grad()`; `z = torch.randn(...)`;
`gen_img = G(z).detach()`; `loss_D = critic_loss(...)`;
`loss_D.backward()`; `optimizer_D.step()`.  `k` is the position of this
iteration's noise draw in the random stream. -/
def criticStep (k : ℕ) : List Op :=
  [Op.zeroGrad Net.D, Op.sampleNoise k, Op.genForward true k,
   Op.computeLoss Net.D, Op.backward Net.D, Op.optimStep Net.D]

/-- The generator update (`train`, lines 155-160): `optimizer_G.zero_grad()`;
`z = torch.randn(...)`; `fake_img = G(z)` (gradient-tracked);
`loss_G = generator_loss(D, fake_img)`; `loss_G.backward()`;
`optimizer_G.step()`. -/
def genUpdate (k : ℕ) : List Op :=
  [Op.zeroGrad Net.G, Op.sampleNoise k, Op.genForward false k,
   Op.computeLoss Net.G, Op.backward Net.G, Op.optimStep Net.G]

/-- The `for _ in range(n_critic)` loop (`train`, line 138): `n` remaining
iterations, next noise draw at position `k` in the random stream. -/
def criticPhase : ℕ → ℕ → List Op
  | 0, _ => []
  | Nat.succ n, k => criticStep k ++ criticPhase n (k + 1)

/-- The full body of `train`'s per-batch loop (lines 138-160): the critic
phase followed by the generator update. -/
def processBatch (n_critic k : ℕ) : List Op :=
  criticPhase n_critic k ++ genUpdate (k + n_critic)

/-- The noise draws an operation trace makes, in order. -/
def noiseDraws (ops : List Op) : List ℕ :=
  ops.filterMap fun op =>
    match op with
    | Op.sampleNoise k => some k
    | _ => none

/-- Is the operation a detached generator forward (`G(z).detach()`)? -/
def isDetachedForward : Op → Bool
  | Op.genForward d _ => d
  | _ => false

/-- Is the operation a gradient-tracked generator forward? -/
def isTrackedForward : Op → Bool
  | Op.genForward d _ => !d
  | _ => false

/-! ### Checkpoints and epoch iteration (`train`, lines 114-130, 176-177) -/

/-- Generator checkpoint path (`train`, line 176). -/
def gwPath (ts : String) : String := "./snapshots/gw_" ++ ts ++ ".pth"

/-- Critic checkpoint path (`train`, line 177). -/
def dwPath (ts : String) : String := "./snapshots/dw_" ++ ts ++ ".pth"

/-- The checkpoint files written at the end of one epoch (`train`, lines
176-177).  The timestamp `ts` is computed once at line 114, before the
epoch loop, so it is a run-level constant; the epoch index does not appear
in either path. -/
def epochCheckpointWrites (ts : String) (_epoch : ℕ) : List String :=
  [gwPath ts, dwPath ts]

/-- All checkpoint files a bounded run of `epochs` epochs writes, in order. -/
def runCheckpointWrites (ts : String) (epochs : ℕ) : List String :=
  ((List.range epochs).map (epochCheckpointWrites ts)).flatten

/-- The `epochs` argument of `train`: an epoch count, or the sentinel
`"inf"`. -/
inductive EpochsArg
  | bounded (n : ℕ)
  | inf
deriving DecidableEq

/-- The epoch iterator (`train`, lines 124-130): `range(epochs)` for a
bounded count, `itertools.count()` for `"inf"`.  `epochIter arg k` is the
epoch index the loop's `k`-th iteration runs with, or `none` when the
iterator is exhausted before a `k`-th iteration. -/
def epochIter : EpochsArg → ℕ → Option ℕ
  | EpochsArg.bounded n, k => if k < n then some k else none
  | EpochsArg.inf, k => some k

/-- C1: `critic_loss` equals `mean(D(fake)) - mean(D(real)) +
gradient_penalty(D, real, fake, device, factor)` (a scalar, by its type
`ℝ`), for every critic and every pair of real/fake batches. -/
theorem critic_loss_eq_spec (D : Critic) (real_samples fake_samples : List Sample)
    (alphas : List ℝ) (factor : ℝ) :
    critic_loss D real_samples fake_samples alphas factor =
      critic_loss_spec D real_samples fake_samples alphas factor := by
  rfl

/-- C2: `generator_loss D fake` is exactly the negated mean of the critic's
scores over the fake batch. -/
theorem generator_loss_eq_neg_mean (D : Critic) (fake_samples : List Sample) :
    generator_loss D fake_samples = -(meanR (fake_samples.map D.score)) := rfl

/-- C6: `get_device` prefers CUDA when available, then MPS, then CPU; it is
a function of the two availability flags alone. -/
theorem get_device_preference (mps_available : Bool) :
    get_device true mps_available = Device.cuda ∧
    get_device false true = Device.mps ∧
    get_device false false = Device.cpu := by
  refine ⟨rfl, rfl, rfl⟩

/-- C3: with an interpolation coefficient in `[0,1]`, every component of the
interpolated sample built inside `gradient_penalty` lies between the
componentwise minimum and maximum of the real and fake samples. -/
theorem interp_component_between (a : ℝ) (real fake : Sample) (i : ℕ)
    (hi : i < (interp a real fake).length) (h0 : 0 ≤ a) (h1 : a ≤ 1) :
    min (real.getD i 0) (fake.getD i 0) ≤ (interp a real fake).getD i 0 ∧
      (interp a real fake).getD i 0 ≤ max (real.getD i 0) (fake.getD i 0) := by
  have hlen : (interp a real fake).length = min real.length fake.length := by
    simp [interp]
  have hr : i < real.length := by rw [hlen] at hi; omega
  have hf : i < fake.length := by rw [hlen] at hi; omega
  rw [List.getD_eq_getElem _ _ hi, List.getD_eq_getElem _ _ hr,
    List.getD_eq_getElem _ _ hf]
  have hget : (interp a real fake)[i] = a * real[i] + (1 - a) * fake[i] := by
    simp only [interp]
    rw [List.getElem_zipWith]
  rw [hget]
  rcases le_total real[i] fake[i] with hc | hc
  · rw [min_eq_left hc, max_eq_right hc]
    constructor
    · nlinarith [mul_nonneg (by linarith : (0:ℝ) ≤ 1 - a)
        (by linarith : (0:ℝ) ≤ fake[i] - real[i])]
    · nlinarith [mul_nonneg h0 (by linarith : (0:ℝ) ≤ fake[i] - real[i])]
  · rw [min_eq_right hc, max_eq_left hc]
    constructor
    · nlinarith [mul_nonneg h0 (by linarith : (0:ℝ) ≤ real[i] - fake[i])]
    · nlinarith [mul_nonneg (by linarith : (0:ℝ) ≤ 1 - a)
        (by linarith : (0:ℝ) ≤ real[i] - fake[i])]

/-- Witness for C3 at `a = 1/2`, `real = [0, 4]`, `fake = [2, 0]`, `i = 0`. -/
theorem interp_component_between_witness :
    min (([0, 4] : Sample).getD 0 0) (([2, 0] : Sample).getD 0 0) ≤
        (interp (1/2) [0, 4] [2, 0]).getD 0 0 ∧
      (interp (1/2) [0, 4] [2, 0]).getD 0 0 ≤
        max (([0, 4] : Sample).getD 0 0) (([2, 0] : Sample).getD 0 0) :=
  interp_component_between (1/2) [0, 4] [2, 0] 0
    (by simp [interp]) (by norm_num) (by norm_num)

/-- C4: when the critic's gradient at every interpolated sample has
Euclidean norm exactly `1`, `gradient_penalty` returns exactly `0`,
whatever the scaling factor. -/
theorem gradient_penalty_eq_zero_of_unit_gradient_norms (D : Critic)
    (real_samples fake_samples : List Sample) (alphas : List ℝ) (factor : ℝ)
    (h : ∀ s ∈ interpolatesList alphas real_samples fake_samples,
      sampleGradNorm (D.grad s) = 1) :
    gradient_penalty D real_samples fake_samples alphas factor = 0 := by
  simp only [gradient_penalty, List.map_map]
  have hsum :
      ((interpolatesList alphas real_samples fake_samples).map
        ((fun n => (n - 1) ^ 2) ∘ (fun g => max (sampleGradNorm g) (1 / 1000000)) ∘
          D.grad)).sum = 0 := by
    apply List.sum_eq_zero
    intro x hx
    obtain ⟨s, hs, rfl⟩ := List.mem_map.1 hx
    simp only [Function.comp_apply, h s hs]
    norm_num
  rw [meanR, hsum]
  simp

/-- Witness for C4: a critic whose gradient is the constant unit vector
`[1]`, on one-component batches. -/
theorem gradient_penalty_eq_zero_of_unit_gradient_norms_witness :
    gradient_penalty ⟨fun _ => 0, fun _ => [1]⟩ [[3]] [[5]] [1/2] 10 = 0 :=
  gradient_penalty_eq_zero_of_unit_gradient_norms ⟨fun _ => 0, fun _ => [1]⟩
    [[3]] [[5]] [1/2] 10
    (by intro s hs; norm_num [sampleGradNorm])

/-- C5: with a non-negative scaling factor, `gradient_penalty` always
returns a non-negative scalar. -/
theorem gradient_penalty_nonneg (D : Critic)
    (real_samples fake_samples : List Sample) (alphas : List ℝ) (factor : ℝ)
    (h : 0 ≤ factor) :
    0 ≤ gradient_penalty D real_samples fake_samples alphas factor := by
  simp only [gradient_penalty]
  apply mul_nonneg h
  apply div_nonneg
  · apply List.sum_nonneg
    intro x hx
    obtain ⟨n, _, rfl⟩ := List.mem_map.1 hx
    positivity
  · positivity

/-- Witness for C5 at the default factor `10` and singleton batches. -/
theorem gradient_penalty_nonneg_witness :
    0 ≤ gradient_penalty ⟨fun _ => 0, fun _ => [2]⟩ [[1]] [[0]] [1/4] 10 :=
  gradient_penalty_nonneg ⟨fun _ => 0, fun _ => [2]⟩ [[1]] [[0]] [1/4] 10
    (by norm_num)

lemma criticPhase_succ (n k : ℕ) :
    criticPhase (n + 1) k = criticStep k ++ criticPhase n (k + 1) := rfl

lemma criticPhase_eq_flatten (n : ℕ) :
    ∀ k, criticPhase n k = ((List.range' k n).map criticStep).flatten := by
  induction n with
  | zero => intro k; rfl
  | succ n ih =>
    intro k
    rw [criticPhase_succ, List.range'_succ, List.map_cons, List.flatten_cons, ih]

lemma criticStep_count_optD (k : ℕ) :
    (criticStep k).count (Op.optimStep Net.D) = 1 := by
  simp [criticStep]

lemma criticStep_count_optG (k : ℕ) :
    (criticStep k).count (Op.optimStep Net.G) = 0 := by
  simp [criticStep]

lemma criticStep_countP_detached (k : ℕ) :
    (criticStep k).countP isDetachedForward = 1 := by
  simp [criticStep, isDetachedForward, List.countP_cons]

lemma criticStep_countP_tracked (k : ℕ) :
    (criticStep k).countP isTrackedForward = 0 := by
  simp [criticStep, isTrackedForward, List.countP_cons]

lemma noiseDraws_criticStep (k : ℕ) : noiseDraws (criticStep k) = [k] := by
  simp [noiseDraws, criticStep]

lemma noiseDraws_append (l₁ l₂ : List Op) :
    noiseDraws (l₁ ++ l₂) = noiseDraws l₁ ++ noiseDraws l₂ := by
  simp [noiseDraws]

lemma criticPhase_count_optD (n : ℕ) :
    ∀ k, (criticPhase n k).count (Op.optimStep Net.D) = n := by
  induction n with
  | zero => intro k; rfl
  | succ n ih =>
    intro k
    rw [criticPhase_succ, List.count_append, criticStep_count_optD, ih]
    omega

lemma criticPhase_count_optG (n : ℕ) :
    ∀ k, (criticPhase n k).count (Op.optimStep Net.G) = 0 := by
  induction n with
  | zero => intro k; rfl
  | succ n ih =>
    intro k
    rw [criticPhase_succ, List.count_append, criticStep_count_optG, ih]

lemma criticPhase_countP_detached (n : ℕ) :
    ∀ k, (criticPhase n k).countP isDetachedForward = n := by
  induction n with
  | zero => intro k; rfl
  | succ n ih =>
    intro k
    rw [criticPhase_succ, List.countP_append, criticStep_countP_detached, ih]
    omega

lemma criticPhase_countP_tracked (n : ℕ) :
    ∀ k, (criticPhase n k).countP isTrackedForward = 0 := by
  induction n with
  | zero => intro k; rfl
  | succ n ih =>
    intro k
    rw [criticPhase_succ, List.countP_append, criticStep_countP_tracked, ih]

lemma noiseDraws_criticPhase (n : ℕ) :
    ∀ k, noiseDraws (criticPhase n k) = List.range' k n := by
  induction n with
  | zero => intro k; rfl
  | succ n ih =>
    intro k
    rw [criticPhase_succ, noiseDraws_append, noiseDraws_criticStep, ih,
      List.range'_succ]
    rfl

lemma genUpdate_count_optD (k : ℕ) :
    (genUpdate k).count (Op.optimStep Net.D) = 0 := by
  simp [genUpdate]

lemma genUpdate_count_optG (k : ℕ) :
    (genUpdate k).count (Op.optimStep Net.G) = 1 := by
  simp [genUpdate]

lemma genUpdate_countP_detached (k : ℕ) :
    (genUpdate k).countP isDetachedForward = 0 := by
  simp [genUpdate, isDetachedForward, List.countP_cons]

lemma genUpdate_countP_tracked (k : ℕ) :
    (genUpdate k).countP isTrackedForward = 1 := by
  simp [genUpdate, isTrackedForward, List.countP_cons]

lemma noiseDraws_genUpdate (k : ℕ) : noiseDraws (genUpdate k) = [k] := by
  simp [noiseDraws, genUpdate]

/-- C7: per real-image batch, the body of `train`'s inner loop performs
exactly `n_critic` critic optimizer steps followed by exactly one generator
optimizer step; it decomposes into `n_critic` copies of the critic-step
discipline (zero critic gradients, fresh noise draw, detached generator
forward, loss, backward, critic step) followed by the generator-update
discipline (zero generator gradients, own fresh noise draw, gradient-tracked
forward, loss, backward, generator step); the last operation is the
generator optimizer step; the noise draws are the `n_critic + 1` distinct
consecutive positions of the random stream (each step samples fresh noise);
and there are exactly `n_critic` detached generator forwards and exactly
one gradient-tracked one. -/
theorem processBatch_schedule (n_critic k : ℕ) :
    processBatch n_critic k =
        ((List.range' k n_critic).map criticStep).flatten ++
          genUpdate (k + n_critic) ∧
    (processBatch n_critic k).count (Op.optimStep Net.D) = n_critic ∧
    (processBatch n_critic k).count (Op.optimStep Net.G) = 1 ∧
    (processBatch n_critic k).getLast? = some (Op.optimStep Net.G) ∧
    noiseDraws (processBatch n_critic k) = List.range' k (n_critic + 1) ∧
    (processBatch n_critic k).countP isDetachedForward = n_critic ∧
    (processBatch n_critic k).countP isTrackedForward = 1 := by
  refine ⟨?_, ?_, ?_, ?_, ?_, ?_, ?_⟩
  · rw [processBatch, criticPhase_eq_flatten]
  · rw [processBatch, List.count_append, criticPhase_count_optD,
      genUpdate_count_optD]
    omega
  · rw [processBatch, List.count_append, criticPhase_count_optG,
      genUpdate_count_optG]
  · rw [processBatch, List.getLast?_append]
    rfl
  · rw [processBatch, noiseDraws_append, noiseDraws_criticPhase,
      noiseDraws_genUpdate]
    have h := @List.range'_concat 1 k n_critic
    rw [one_mul] at h
    rw [h]
  · rw [processBatch, List.countP_append, criticPhase_countP_detached,
      genUpdate_countP_detached]
    omega
  · rw [processBatch, List.countP_append, criticPhase_countP_tracked,
      genUpdate_countP_tracked]

/-- C8: within one run (one timestamp), the two checkpoint files written at
the end of every epoch have the same two fixed paths
`./snapshots/gw_<timestamp>.pth` and `./snapshots/dw_<timestamp>.pth`, so
each epoch overwrites the previous epoch's checkpoints, and no other
checkpoint file is ever written. -/
theorem checkpoint_writes_fixed (ts : String) (epochs e₁ e₂ : ℕ)
    (_h₁ : e₁ < epochs) (_h₂ : e₂ < epochs) :
    epochCheckpointWrites ts e₁ = [gwPath ts, dwPath ts] ∧
    epochCheckpointWrites ts e₁ = epochCheckpointWrites ts e₂ ∧
    ∀ p ∈ runCheckpointWrites ts epochs, p = gwPath ts ∨ p = dwPath ts := by
  refine ⟨rfl, rfl, ?_⟩
  intro p hp
  simp only [runCheckpointWrites, epochCheckpointWrites, List.mem_flatten,
    List.mem_map] at hp
  obtain ⟨l, ⟨e, _, rfl⟩, hpl⟩ := hp
  simpa using hpl

/-- Witness for C8 at timestamp `"20250101000000"`, a 2-epoch run, epochs
0 and 1. -/
theorem checkpoint_writes_fixed_witness :
    epochCheckpointWrites "20250101000000" 0 =
        [gwPath "20250101000000", dwPath "20250101000000"] ∧
    epochCheckpointWrites "20250101000000" 0 =
        epochCheckpointWrites "20250101000000" 1 ∧
    ∀ p ∈ runCheckpointWrites "20250101000000" 2,
      p = gwPath "20250101000000" ∨ p = dwPath "20250101000000" :=
  checkpoint_writes_fixed "20250101000000" 2 0 1 (by norm_num) (by norm_num)

/-- C9: with a bounded epoch count `N`, the epoch loop runs an iteration
`k` exactly when `k < N` (so it runs exactly `N` epochs, with epoch indices
`0, …, N-1`, and then terminates); with the sentinel `"inf"` every
iteration `k` runs, so the loop never terminates on its own. -/
theorem train_epoch_termination (N k : ℕ) :
    (epochIter (EpochsArg.bounded N) k = some k ↔ k < N) ∧
    (epochIter (EpochsArg.bounded N) k = none ↔ N ≤ k) ∧
    epochIter EpochsArg.inf k = some k := by
  refine ⟨?_, ?_, rfl⟩
  · simp only [epochIter]
    split <;> simp_all
  · simp only [epochIter]
    split <;> simp_all

/-- Witness for C9 at `N = 3`, `k = 2`. -/
theorem train_epoch_termination_witness :
    (epochIter (EpochsArg.bounded 3) 2 = some 2 ↔ 2 < 3) ∧
    (epochIter (EpochsArg.bounded 3) 2 = none ↔ 3 ≤ 2) ∧
    epochIter EpochsArg.inf 2 = some 2 :=
  train_epoch_termination 3 2

/-- C10: `gradient_penalty` is homogeneous in its scaling factor: with the
interpolation coefficients held fixed, scaling `factor` scales the result,
relative to `factor = 1`. -/
theorem gradient_penalty_factor_homogeneous (D : Critic)
    (real_samples fake_samples : List Sample) (alphas : List ℝ) (factor : ℝ) :
    gradient_penalty D real_samples fake_samples alphas factor =
      factor * gradient_penalty D real_samples fake_samples alphas 1 := by
  unfold gradient_penalty
  ring
